import Mathlib

/-!
Shallow embedding of the commission-accounting core of the
`paginare/influencer_backend` repository, together with proofs about it.

Monetary amounts are modelled as `Rat` (the source uses JS numbers; all the
arithmetic the claims exercise is exact decimal arithmetic). JS `undefined`
is modelled as `Option.none`; JS values that can be either a number or a
string are modelled by `JsVal`.
-/

namespace InfluencerBackend

/-- JS values that the webhook payloads carry in fields which the source
code probes by `typeof`: either a number or a string. -/
inductive JsVal where
  | num (x : Rat)
  | str (s : String)
deriving DecidableEq, Repr

/-- JS truthiness of a `JsVal`: `0` and `""` are falsy. -/
def jvTruthy : JsVal → Bool
  | .num x => decide (x ≠ 0)
  | .str s => decide (s ≠ "")

/-- JS truthiness filter on an optional string: `undefined` and `""` are
falsy, any other string is kept. -/
def strTruthy : Option String → Option String
  | none => none
  | some s => if s = "" then none else some s

/-- First truthy value of a chain `a || b || c` of optional strings
(`none` when every operand is falsy, in which case the source code always
rejects the value right afterwards). -/
def firstTruthyStr (l : List (Option String)) : Option String :=
  l.findSome? strTruthy

/-- JS `a || b` on optional `JsVal`s: the first operand when truthy,
otherwise the second operand as-is (its own truthiness is checked by the
caller). -/
def jvalOr (a b : Option JsVal) : Option JsVal :=
  match a with
  | some v => if jvTruthy v then some v else b
  | none => b

/-- JS `a || b` on optional integer timestamps (`0` is falsy). -/
def intOr (a b : Option Int) : Option Int :=
  match a with
  | some x => if x = 0 then b else some x
  | none => b

/-- JS `String.prototype.trim`: drop whitespace from both ends (modelled
structurally on the character list). -/
def jsTrim (s : String) : String :=
  String.mk (((s.data.dropWhile Char.isWhitespace).reverse.dropWhile
    Char.isWhitespace).reverse)

/-- Leading decimal digits of a character list, as digit values, together
with the rest of the list. -/
def takeDigits : List Char → List Nat × List Char
  | [] => ([], [])
  | c :: rest =>
    if c.isDigit then
      let (ds, r) := takeDigits rest
      ((c.toNat - 48) :: ds, r)
    else ([], c :: rest)

/-- Digit list to natural number, most significant digit first. -/
def digitsToNat (ds : List Nat) : Nat :=
  ds.foldl (fun a d => a * 10 + d) 0

/-- Digit list `[d₁, d₂, …]` to the fraction `0.d₁d₂…`. -/
def fracValue (ds : List Nat) : Rat :=
  ds.foldr (fun d a => ((d : Rat) + a) / 10) 0

/-- JS `parseFloat` on the fragment the webhook payloads use: optional
leading whitespace, optional sign, decimal digits with an optional
fractional part; trailing garbage is ignored. `none` models `NaN` (no
digits at all). Exponent notation and `Infinity` are not modelled; the
only string `parseFloat` is applied to after stripping (CartPanda path)
can contain only digits, `.` and `-`. -/
def jsParseFloat (s : String) : Option Rat :=
  let cs := s.data.dropWhile Char.isWhitespace
  let (neg, cs1) :=
    match cs with
    | '-' :: r => (true, r)
    | '+' :: r => (false, r)
    | _ => (false, cs)
  let (ip, cs2) := takeDigits cs1
  let fp :=
    match cs2 with
    | '.' :: r => (takeDigits r).1
    | _ => []
  if ip = [] ∧ fp = [] then none
  else
    let v : Rat := (digitsToNat ip : Rat) + fracValue fp
    some (if neg then -v else v)

/-- JS `parseFloat` applied to a value that is already a number or a
string (`parseFloat` of a finite number is that number). -/
def jsParseFloatVal : JsVal → Option Rat
  | .num x => some x
  | .str s => jsParseFloat s

/-- The CartPanda adapter's `replace(/[^\d.-]/g, '')`: keep only digits,
`.` and `-`. -/
def stripNonNumeric (s : String) : String :=
  String.mk (s.data.filter (fun c => c.isDigit || c = '.' || c = '-'))

/-- Role a commission tier applies to (`appliesTo: 'influencer' | 'manager'`
in `CommissionTierSchema`). -/
inductive Role where
  | influencer
  | manager
deriving DecidableEq, Repr

/-- A commission tier row (`CommissionTierSchema`, src/src/models/User.ts).
`maxSalesValue` is optional (absent means unbounded above). -/
structure CommissionTier where
  name : String
  minSalesValue : Rat
  maxSalesValue : Option Rat
  commissionPercentage : Rat
  appliesTo : Role
  isActive : Bool
deriving DecidableEq, Repr

/-- The filter of the mongo query in `calculateCommission`
(src/src/controllers/webhookController.ts) and its identical copy
`calculateCommissionForSale` (commission service): active tiers of the
given role whose `minSalesValue` is at most the sale value. -/
def tierQualifies (role : Role) (saleValue : Rat) (t : CommissionTier) : Bool :=
  decide (t.appliesTo = role) && t.isActive && decide (t.minSalesValue ≤ saleValue)

/-- The tiers returned by the query `CommissionTier.find(appliesTo, isActive,
minSalesValue ≤ saleValue)`, before sorting. -/
def qualifyingTiers (tiers : List CommissionTier) (role : Role) (saleValue : Rat) :
    List CommissionTier :=
  tiers.filter (tierQualifies role saleValue)

/-- Head of the query result after `.sort(minSalesValue: -1)`: an element
with the largest `minSalesValue` (the earliest such element; the sort
order among ties is arbitrary in the source, and the claims treat ties as
broken arbitrarily). `none` exactly when the list is empty. -/
def topTier : List CommissionTier → Option CommissionTier
  | [] => none
  | t :: ts =>
    match topTier ts with
    | none => some t
    | some b => if b.minSalesValue > t.minSalesValue then some b else some t

/-- `calculateCommission` (webhookController.ts) and its identical copy
`calculateCommissionForSale` (commission service): zero when no tier
qualifies, otherwise `saleValue * pct / 100` for the qualifying tier with
the largest `minSalesValue`. -/
def calculateCommission (tiers : List CommissionTier) (saleValue : Rat) (role : Role) : Rat :=
  match topTier (qualifyingTiers tiers role saleValue) with
  | none => 0
  | some t => saleValue * (t.commissionPercentage / 100)

theorem topTier_eq_none_iff (l : List CommissionTier) : topTier l = none ↔ l = [] := by
  induction l with
  | nil => simp [topTier]
  | cons t ts ih =>
    simp only [topTier]
    cases h : topTier ts with
    | none => simp
    | some b =>
      constructor
      · intro hc
        by_cases hcmp : b.minSalesValue > t.minSalesValue <;> simp [hcmp] at hc
      · intro hc
        exact absurd hc (by simp)

theorem topTier_mem {l : List CommissionTier} {t : CommissionTier}
    (h : topTier l = some t) : t ∈ l := by
  induction l with
  | nil => simp [topTier] at h
  | cons a as ih =>
    simp only [topTier] at h
    cases hrec : topTier as with
    | none =>
      rw [hrec] at h
      simp at h
      simp [h]
    | some b =>
      rw [hrec] at h
      by_cases hcmp : b.minSalesValue > a.minSalesValue
      · simp [hcmp] at h
        subst h
        exact List.mem_cons_of_mem a (ih hrec)
      · simp [hcmp] at h
        simp [h]

theorem topTier_max {l : List CommissionTier} {t : CommissionTier}
    (h : topTier l = some t) : ∀ u ∈ l, u.minSalesValue ≤ t.minSalesValue := by
  induction l generalizing t with
  | nil => simp
  | cons a as ih =>
    simp only [topTier] at h
    cases hrec : topTier as with
    | none =>
      rw [hrec] at h
      simp at h
      subst h
      intro u hu
      rcases List.mem_cons.mp hu with h1 | h2
      · simp [h1]
      · exact absurd ((topTier_eq_none_iff as).mp hrec ▸ h2) (by simp)
    | some b =>
      rw [hrec] at h
      intro u hu
      by_cases hcmp : b.minSalesValue > a.minSalesValue
      · simp [hcmp] at h
        subst h
        rcases List.mem_cons.mp hu with h1 | h2
        · exact h1 ▸ le_of_lt hcmp
        · exact ih hrec u h2
      · simp [hcmp] at h
        subst h
        rcases List.mem_cons.mp hu with h1 | h2
        · simp [h1]
        · exact le_trans (ih hrec u h2) (le_of_not_lt hcmp)

theorem tierQualifies_iff (role : Role) (v : Rat) (t : CommissionTier) :
    tierQualifies role v t = true ↔
      t.appliesTo = role ∧ t.isActive = true ∧ t.minSalesValue ≤ v := by
  simp [tierQualifies, Bool.and_eq_true, decide_eq_true_eq, and_assoc]

theorem qualifyingTiers_map_preserving (tiers : List CommissionTier)
    (h : CommissionTier → CommissionTier) (role : Role) (v : Rat)
    (hq : ∀ t, tierQualifies role v (h t) = tierQualifies role v t) :
    qualifyingTiers (tiers.map h) role v = (qualifyingTiers tiers role v).map h := by
  induction tiers with
  | nil => rfl
  | cons a as ih =>
    simp only [qualifyingTiers, List.map_cons, List.filter_cons] at *
    rw [hq a]
    cases tierQualifies role v a <;> simp [ih]

theorem topTier_map_preserving (l : List CommissionTier)
    (h : CommissionTier → CommissionTier)
    (hmin : ∀ t, (h t).minSalesValue = t.minSalesValue) :
    topTier (l.map h) = (topTier l).map h := by
  induction l with
  | nil => rfl
  | cons a as ih =>
    simp only [List.map_cons, topTier, ih]
    cases topTier as with
    | none => rfl
    | some b =>
      simp only [Option.map_some']
      rw [hmin b, hmin a]
      by_cases hc : b.minSalesValue > a.minSalesValue <;> simp [hc]

/-- C1: for every role and every sale value `≥ 0`, commission resolution
returns `saleValue * pct / 100` where `pct` is the `commissionPercentage`
of the `isActive = true` tier for that role with the largest
`minSalesValue` that is `≤ saleValue`; when no active tier for the role
has `minSalesValue ≤ saleValue` it returns exactly `0` (the function is
total, so no error is ever signalled). -/
theorem calculateCommission_tier_resolution (tiers : List CommissionTier)
    (role : Role) (v : Rat) (_hv : 0 ≤ v) :
    ((∀ t ∈ tiers, t.appliesTo = role → t.isActive = true → ¬ t.minSalesValue ≤ v) →
      calculateCommission tiers v role = 0) ∧
    ((∃ t ∈ tiers, t.appliesTo = role ∧ t.isActive = true ∧ t.minSalesValue ≤ v) →
      ∃ t ∈ tiers, t.appliesTo = role ∧ t.isActive = true ∧ t.minSalesValue ≤ v ∧
        (∀ u ∈ tiers, u.appliesTo = role → u.isActive = true → u.minSalesValue ≤ v →
          u.minSalesValue ≤ t.minSalesValue) ∧
        calculateCommission tiers v role = v * (t.commissionPercentage / 100)) := by
  constructor
  · intro hnone
    have hfil : qualifyingTiers tiers role v = [] := by
      apply List.filter_eq_nil_iff.mpr
      intro t ht
      intro hq
      rcases (tierQualifies_iff role v t).mp hq with ⟨h1, h2, h3⟩
      exact hnone t ht h1 h2 h3
    simp [calculateCommission, hfil, topTier]
  · rintro ⟨t0, ht0, h1, h2, h3⟩
    have ht0f : t0 ∈ qualifyingTiers tiers role v := by
      apply List.mem_filter.mpr
      exact ⟨ht0, (tierQualifies_iff role v t0).mpr ⟨h1, h2, h3⟩⟩
    have hne : qualifyingTiers tiers role v ≠ [] := by
      intro hc
      rw [hc] at ht0f
      exact absurd ht0f (List.not_mem_nil t0)
    cases htop : topTier (qualifyingTiers tiers role v) with
    | none => exact absurd ((topTier_eq_none_iff _).mp htop) hne
    | some t =>
      have htmem := topTier_mem htop
      rcases List.mem_filter.mp htmem with ⟨htin, htq⟩
      rcases (tierQualifies_iff role v t).mp htq with ⟨hq1, hq2, hq3⟩
      refine ⟨t, htin, hq1, hq2, hq3, ?_, ?_⟩
      · intro u hu hu1 hu2 hu3
        exact topTier_max htop u
          (List.mem_filter.mpr ⟨hu, (tierQualifies_iff role v u).mpr ⟨hu1, hu2, hu3⟩⟩)
      · simp [calculateCommission, htop]

/-- A concrete two-tier table used by witnesses. -/
def demoTiers : List CommissionTier :=
  [{ name := "t1", minSalesValue := 0, maxSalesValue := some 1000,
     commissionPercentage := 10, appliesTo := Role.influencer, isActive := true },
   { name := "t2", minSalesValue := 1000, maxSalesValue := none,
     commissionPercentage := 15, appliesTo := Role.influencer, isActive := true }]

/-- C1 witness: the theorem instantiated at a concrete tier table and sale
value, its hypothesis discharged concretely. -/
theorem calculateCommission_tier_resolution_witness :
    (0 : Rat) ≤ 1500 ∧
    (((∀ t ∈ demoTiers,
        t.appliesTo = Role.influencer → t.isActive = true → ¬ t.minSalesValue ≤ (1500 : Rat)) →
      calculateCommission demoTiers 1500 Role.influencer = 0) ∧
    ((∃ t ∈ demoTiers,
        t.appliesTo = Role.influencer ∧ t.isActive = true ∧ t.minSalesValue ≤ (1500 : Rat)) →
      ∃ t ∈ demoTiers,
        t.appliesTo = Role.influencer ∧ t.isActive = true ∧ t.minSalesValue ≤ (1500 : Rat) ∧
        (∀ u ∈ demoTiers,
          u.appliesTo = Role.influencer → u.isActive = true → u.minSalesValue ≤ (1500 : Rat) →
          u.minSalesValue ≤ t.minSalesValue) ∧
        calculateCommission demoTiers 1500 Role.influencer =
          1500 * (t.commissionPercentage / 100))) :=
  ⟨by norm_num,
    calculateCommission_tier_resolution demoTiers Role.influencer 1500 (by norm_num)⟩

/-- C10: a tier's `maxSalesValue` (and its display name) is never consulted
by the resolver: rewriting those two fields arbitrarily in every tier
leaves the resolved commission unchanged, so the result depends only on
the remaining fields (`appliesTo`, `isActive`, `minSalesValue`,
`commissionPercentage`), and a sale value strictly above a tier's stored
upper bound still receives that tier's percentage whenever it has the
largest qualifying `minSalesValue`. -/
theorem calculateCommission_ignores_maxSalesValue (tiers : List CommissionTier)
    (f : CommissionTier → Option Rat) (g : CommissionTier → String)
    (v : Rat) (role : Role) :
    calculateCommission
      (tiers.map (fun t => { t with maxSalesValue := f t, name := g t })) v role =
    calculateCommission tiers v role := by
  have hq : ∀ t, tierQualifies role v { t with maxSalesValue := f t, name := g t } =
      tierQualifies role v t := by
    intro t
    simp [tierQualifies]
  have hmin : ∀ t : CommissionTier,
      ({ t with maxSalesValue := f t, name := g t } : CommissionTier).minSalesValue =
        t.minSalesValue := fun _ => rfl
  unfold calculateCommission
  rw [qualifyingTiers_map_preserving tiers _ role v hq,
    topTier_map_preserving _ _ hmin]
  cases topTier (qualifyingTiers tiers role v) with
  | none => rfl
  | some t => rfl

/-! ## Data model: users, sales, payments, database state -/

/-- The fields of a user document that the commission core reads
(src/src/models/User.ts); account-management fields are out of scope.
`manager` is the id of the user's manager, `tokenWhats` the manager-side
notification credential. -/
structure User where
  userId : Nat
  name : String
  couponCode : Option String
  manager : Option Nat
  whatsappNumber : Option String
  tokenWhats : Option String
deriving DecidableEq, Repr

/-- A sale document (`SaleSchema`, src/unnamed/part_011). `saleId` models
the mongo `_id`; `orderId` carries a storage-level unique index. -/
structure Sale where
  saleId : Nat
  influencer : Nat
  manager : Option Nat
  orderId : String
  saleValue : Rat
  commissionCalculated : Bool
  influencerCommissionEarned : Option Rat
  managerCommissionEarned : Option Rat
  couponCodeUsed : Option String
  transactionDate : Int
  processedViaWebhook : Bool
deriving DecidableEq, Repr

/-- Payment status (`status: pending | paid | failed`). -/
inductive PaymentStatus where
  | pending
  | paid
  | failed
deriving DecidableEq, Repr

/-- A commission payment batch (`CommissionPaymentSchema`,
src/src/models/User.ts part); `sales` holds the ids of the folded sales.
`paymentDate` and `transactionId` are only touched by the status-update
operation, which no claim exercises, so they are omitted. -/
structure CommissionPayment where
  user : Nat
  roleAtPayment : Role
  sales : List Nat
  totalSalesValue : Rat
  commissionEarned : Rat
  paymentPeriodStart : Int
  paymentPeriodEnd : Int
  status : PaymentStatus
deriving DecidableEq, Repr

/-- The persistent state the core operates on: the three collections plus
the id counter for newly created sales. -/
structure DB where
  users : List User
  tiers : List CommissionTier
  sales : List Sale
  payments : List CommissionPayment
  nextSaleId : Nat
deriving DecidableEq, Repr

/-- `Sale.findOne(orderId)`: first sale with the given order id. -/
def findSaleByOrderId (sales : List Sale) (oid : String) : Option Sale :=
  sales.find? (fun s => s.orderId = oid)

/-- `User.findOne(couponCode)`: first user with the given coupon code. -/
def findUserByCoupon (db : DB) (code : String) : Option User :=
  db.users.find? (fun u => u.couponCode = some code)

/-- `User.findById`. -/
def findUserById (db : DB) (uid : Nat) : Option User :=
  db.users.find? (fun u => u.userId = uid)

/-- A notification intent handed to the messaging collaborator:
recipient WhatsApp number and the manager credential used. Message
rendering (templates, variable substitution) does not affect any claim
and is not modelled; delivery failures are swallowed by the source, so
emission of the intent is the only observable effect. -/
structure Notification where
  recipient : String
  token : String
deriving DecidableEq, Repr

/-- Step 7 of the webhook controllers: the new-sale notification is
attempted only when the influencer has a (truthy) WhatsApp number, has a
manager, the manager is found, and the manager has a (truthy)
`tokenWhats`. -/
def saleNotification (db : DB) (influencer : User) : List Notification :=
  match strTruthy influencer.whatsappNumber with
  | none => []
  | some w =>
    match influencer.manager with
    | none => []
    | some mid =>
      match findUserById db mid with
      | none => []
      | some m =>
        match strTruthy m.tokenWhats with
        | none => []
        | some tok => [{ recipient := w, token := tok }]

/-- Responses of the webhook controllers, as the error middleware
(src/src/middlewares/errorMiddleware.ts) renders them:
`alreadyProcessed`, `noCoupon` and `noInfluencer` are HTTP 200,
`saleCreated` is 201, `badRequest` is a thrown error with status 400, and
`serverError` is a thrown error with the status still at its default
(rendered as 500), which is what an uncaught persistence failure such as
a duplicate-key error on `Sale.create` produces. -/
inductive WebhookResponse where
  | alreadyProcessed (saleId : Nat)
  | noCoupon
  | noInfluencer (coupon : String)
  | saleCreated (saleId : Nat) (influencerCommission managerCommission : Rat)
  | badRequest
  | serverError
deriving DecidableEq, Repr

/-- Steps 1–8 shared by the Shopify and CartPanda controllers after
normalization: deduplicate on `orderId` against `salesAtCheck` (the
ledger as read by `Sale.findOne`; passing `db.sales` gives the
sequential semantics, and a stale list models the race between the
duplicate check and the insert), attribute the coupon, compute
commissions, insert the sale — `Sale.create` enforces the unique index on
`orderId` against the current ledger `db.sales` and its failure is not
caught, surfacing as `serverError` — then emit the notification intent.
`vOpt = none` models a `NaN` order value (Shopify does not validate
`parseFloat`): the tier query then matches nothing, and `Sale.create`
rejects the document (`min: 0` validator), again uncaught. -/
def ingestCore (db : DB) (salesAtCheck : List Sale) (orderId : String)
    (coupon : Option String) (vOpt : Option Rat) (txDate : Int) :
    WebhookResponse × DB × List Notification :=
  match findSaleByOrderId salesAtCheck orderId with
  | some existing => (.alreadyProcessed existing.saleId, db, [])
  | none =>
    match coupon with
    | none => (.noCoupon, db, [])
    | some c =>
      match findUserByCoupon db c with
      | none => (.noInfluencer c, db, [])
      | some influencer =>
        let manager := influencer.manager.bind (findUserById db)
        let influencerCommission :=
          match vOpt with
          | some v => calculateCommission db.tiers v .influencer
          | none => 0
        let managerCommission :=
          match manager with
          | some _ =>
            match vOpt with
            | some v => calculateCommission db.tiers v .manager
            | none => 0
          | none => 0
        match vOpt with
        | none => (.serverError, db, [])
        | some v =>
          if (db.sales.filter (fun s => s.orderId = orderId)).length ≠ 0 then
            (.serverError, db, [])
          else
            let newSale : Sale :=
              { saleId := db.nextSaleId
                influencer := influencer.userId
                manager := manager.map (·.userId)
                orderId := orderId
                saleValue := v
                commissionCalculated := true
                influencerCommissionEarned := some influencerCommission
                managerCommissionEarned := some managerCommission
                couponCodeUsed := some c
                transactionDate := txDate
                processedViaWebhook := true }
            let db1 := { db with sales := db.sales ++ [newSale],
                                 nextSaleId := db.nextSaleId + 1 }
            (.saleCreated newSale.saleId influencerCommission managerCommission,
              db1, saleNotification db influencer)

/-! ## Webhook normalizers (per-platform adapters) -/

/-- One element of the Shopify `discount_codes` array: an object with a
`code` property (the controller reads `discount_codes[0].code`; the other
properties of the object are never read). -/
structure ShopifyDiscount where
  code : String
deriving DecidableEq, Repr

/-- The fields of `req.body.order` that `processShopifyWebhook`
destructures. Order ids are modelled as strings (absent = `none`, `""`
falsy); timestamps as integer epoch values. `customer` and `line_items`
are destructured but never used. -/
structure ShopifyOrder where
  id : Option String
  order_number : Option String
  name : Option String
  total_price : Option JsVal
  current_total_price : Option JsVal
  discount_codes : Option (List ShopifyDiscount)
  created_at : Option Int
deriving DecidableEq, Repr

/-- A Shopify webhook body: an optional `order` object. -/
structure ShopifyBody where
  order : Option ShopifyOrder
deriving DecidableEq, Repr

/-- `processShopifyWebhook` (src/src/controllers/webhookController.ts):
reject when `order` is absent; `finalOrderId = id || order_number ||
name`; `finalTotalPrice = total_price || current_total_price`; reject
(`400`) when either is falsy — note a numeric total of `0` is falsy and
is rejected, and string totals are passed to `parseFloat` unstripped;
the coupon is `discount_codes[0].code` with no presence check on `code`
beyond the array being non-empty. `now` is `Date.now()`. -/
def processShopifyWebhook (db : DB) (salesAtCheck : List Sale)
    (body : ShopifyBody) (now : Int) : WebhookResponse × DB × List Notification :=
  match body.order with
  | none => (.badRequest, db, [])
  | some o =>
    match firstTruthyStr [o.id, o.order_number, o.name] with
    | none => (.badRequest, db, [])
    | some oid =>
      match jvalOr o.total_price o.current_total_price with
      | none => (.badRequest, db, [])
      | some tv =>
        if jvTruthy tv then
          let coupon : Option String :=
            match o.discount_codes with
            | none => none
            | some [] => none
            | some (d :: _) => some d.code
          ingestCore db salesAtCheck oid coupon (jsParseFloatVal tv)
            ((intOr o.created_at (some now)).getD now)
        else (.badRequest, db, [])

/-- One element of a CartPanda `discount_codes` array: either a plain
string or an object with an optional `code` property. -/
inductive CPEntry where
  | str (s : String)
  | obj (code : Option String)
deriving DecidableEq, Repr

/-- The three encodings of CartPanda `discount_codes`: a plain string, an
array, or a single object with an optional `code` property. -/
inductive CPDiscountCodes where
  | str (s : String)
  | arr (l : List CPEntry)
  | obj (code : Option String)
deriving DecidableEq, Repr

/-- The coupon-extraction block of `processCartPandaWebhook` (lines
249–268): the value of the `couponCode` variable after the `if/else if`
chain. A falsy top-level value (absent, or the empty string) leaves it
null; a non-empty string is trimmed; for an array only element `0` is
examined — an object element contributes its `code` only when that code
is truthy, a string element is taken as-is; a single object contributes
its `code` only when truthy. -/
def cartPandaCoupon (dc : Option CPDiscountCodes) : Option String :=
  match dc with
  | none => none
  | some (.str s) => if s = "" then none else some (jsTrim s)
  | some (.arr []) => none
  | some (.arr (.obj code :: _)) =>
    match code with
    | some c => if c = "" then none else some c
    | none => none
  | some (.arr (.str s :: _)) => some s
  | some (.obj code) =>
    match code with
    | some c => if c = "" then none else some c
    | none => none

/-- The fields of a CartPanda `req.body.order` that the controller
destructures. -/
structure CPOrder where
  id : Option String
  order_number : Option String
  number : Option String
  name : Option String
  total_price : Option JsVal
  discount_codes : Option CPDiscountCodes
  processed_at : Option Int
  created_at : Option Int
deriving DecidableEq, Repr

/-- A CartPanda webhook body: optional `order` plus the `event` string. -/
structure CPBody where
  order : Option CPOrder
  event : String
deriving DecidableEq, Repr

/-- The total-value normalization of `processCartPandaWebhook` (lines
228–238): a string total has every character outside `[0-9.-]` stripped
and is then parsed; `none` models both `undefined` and `NaN`, each of
which the controller rejects. -/
def cartPandaTotal (tp : Option JsVal) : Option Rat :=
  match tp with
  | none => none
  | some (.num x) => some x
  | some (.str s) => jsParseFloat (stripNonNumeric s)

/-- `processCartPandaWebhook`: reject when `order` is absent or `event ≠
"order.paid"`; `finalOrderId = id || order_number || number || name`;
reject (`400`) when the order id is falsy or the total is absent or
parses to `NaN` (a numeric total of `0` passes); extract the coupon with
the `if/else if` chain and treat a falsy result as "no coupon". -/
def processCartPandaWebhook (db : DB) (salesAtCheck : List Sale)
    (body : CPBody) (now : Int) : WebhookResponse × DB × List Notification :=
  match body.order with
  | none => (.badRequest, db, [])
  | some o =>
    if body.event = "order.paid" then
      match firstTruthyStr [o.id, o.order_number, o.number, o.name] with
      | none => (.badRequest, db, [])
      | some oid =>
        match cartPandaTotal o.total_price with
        | none => (.badRequest, db, [])
        | some v =>
          ingestCore db salesAtCheck oid
            (strTruthy (cartPandaCoupon o.discount_codes)) (some v)
            ((intOr o.processed_at (intOr o.created_at (some now))).getD now)
    else (.badRequest, db, [])

/-- `processSaleWebhook`, the generic adapter kept for compatibility:
requires truthy `orderId`, `orderValue` and `couponCode` (so an order
value of `0` is rejected as incomplete data, `400`); deduplicates; an
unmatched coupon is a **thrown 400 error**, unlike the other two
adapters; otherwise computes commissions, inserts (uncaught unique-index
failure, as in `ingestCore`) and notifies. The order value arrives as a
JSON number here (the route's documented payload), so it is modelled as
`Option Rat` directly; `transactionDate` is `Date.now()`. -/
def processSaleWebhook (db : DB) (salesAtCheck : List Sale)
    (orderId : Option String) (orderValue : Option Rat)
    (couponCode : Option String) (now : Int) :
    WebhookResponse × DB × List Notification :=
  match strTruthy orderId, orderValue.filter (fun v => v ≠ 0), strTruthy couponCode with
  | some oid, some v, some c =>
    (match findSaleByOrderId salesAtCheck oid with
     | some existing => (.alreadyProcessed existing.saleId, db, [])
     | none =>
       match findUserByCoupon db c with
       | none => (.badRequest, db, [])
       | some influencer =>
         let manager := influencer.manager.bind (findUserById db)
         let influencerCommission := calculateCommission db.tiers v .influencer
         let managerCommission :=
           match manager with
           | some _ => calculateCommission db.tiers v .manager
           | none => 0
         if (db.sales.filter (fun s => s.orderId = oid)).length ≠ 0 then
           (.serverError, db, [])
         else
           let newSale : Sale :=
             { saleId := db.nextSaleId
               influencer := influencer.userId
               manager := manager.map (·.userId)
               orderId := oid
               saleValue := v
               commissionCalculated := true
               influencerCommissionEarned := some influencerCommission
               managerCommissionEarned := some managerCommission
               couponCodeUsed := some c
               transactionDate := now
               processedViaWebhook := true }
           let db1 := { db with sales := db.sales ++ [newSale],
                                nextSaleId := db.nextSaleId + 1 }
           (.saleCreated newSale.saleId influencerCommission managerCommission,
             db1, saleNotification db influencer))
  | _, _, _ => (.badRequest, db, [])

/-! ## Concrete states used by witnesses and counterexamples -/

/-- A concrete influencer with coupon `abc`, no manager, no WhatsApp. -/
def demoInfluencer : User :=
  { userId := 1, name := "Ana", couponCode := some "abc", manager := none,
    whatsappNumber := none, tokenWhats := none }

/-- A concrete already-recorded sale with order id `ord1`. -/
def demoSale : Sale :=
  { saleId := 0, influencer := 1, manager := none, orderId := "ord1",
    saleValue := 100, commissionCalculated := true,
    influencerCommissionEarned := some 10, managerCommissionEarned := some 0,
    couponCodeUsed := some "abc", transactionDate := 0,
    processedViaWebhook := true }

/-- A concrete database with one influencer, the demo tier table and one
recorded sale. -/
def raceDb : DB :=
  { users := [demoInfluencer], tiers := demoTiers, sales := [demoSale],
    payments := [], nextSaleId := 1 }

/-! ## C2: idempotent replay of a duplicate orderId -/

/-- C2: when a sale with the incoming `orderId` already exists (and the
unique index guarantees there is exactly one such row), a second
ingestion of any payload carrying that `orderId` returns the
already-processed success with the saleId of the existing row, leaves the
database unchanged (no new row, no recomputation) and attempts no
notification; exactly one sale row with that `orderId` exists
afterwards. -/
theorem ingestCore_duplicate_orderId_idempotent (db : DB) (oid : String)
    (coupon : Option String) (vOpt : Option Rat) (tx : Int)
    (hone : (db.sales.filter (fun s => s.orderId = oid)).length = 1) :
    ∃ s, findSaleByOrderId db.sales oid = some s ∧ s.orderId = oid ∧ s ∈ db.sales ∧
      ingestCore db db.sales oid coupon vOpt tx =
        (.alreadyProcessed s.saleId, db, []) ∧
      (((ingestCore db db.sales oid coupon vOpt tx).2.1.sales.filter
          (fun s => s.orderId = oid)).length = 1) := by
  have hpos : 0 < (db.sales.filter (fun s => s.orderId = oid)).length := by omega
  obtain ⟨a, ha⟩ := List.exists_mem_of_length_pos hpos
  have hsome : (db.sales.find? (fun s => s.orderId = oid)).isSome :=
    List.find?_isSome.mpr ⟨a, (List.mem_filter.mp ha).1, (List.mem_filter.mp ha).2⟩
  obtain ⟨s, hfind⟩ := Option.isSome_iff_exists.mp hsome
  have hmem : s ∈ db.sales := List.mem_of_find?_eq_some hfind
  have hoid : s.orderId = oid := by
    have := List.find?_some hfind
    simpa using this
  have heq : ingestCore db db.sales oid coupon vOpt tx =
      (.alreadyProcessed s.saleId, db, []) := by
    simp only [ingestCore, findSaleByOrderId, hfind]
  refine ⟨s, ?_, hoid, hmem, heq, ?_⟩
  · simpa [findSaleByOrderId] using hfind
  · rw [heq]
    exact hone

/-- C2 witness: replaying order id `ord1` against the concrete database
that already holds it. -/
theorem ingestCore_duplicate_orderId_idempotent_witness :
    ((raceDb.sales.filter (fun s => s.orderId = "ord1")).length = 1) ∧
    (∃ s, findSaleByOrderId raceDb.sales "ord1" = some s ∧ s.orderId = "ord1" ∧
      s ∈ raceDb.sales ∧
      ingestCore raceDb raceDb.sales "ord1" (some "abc") (some 100) 0 =
        (.alreadyProcessed s.saleId, raceDb, []) ∧
      (((ingestCore raceDb raceDb.sales "ord1" (some "abc") (some 100) 0).2.1.sales.filter
          (fun s => s.orderId = "ord1")).length = 1)) :=
  ⟨by decide,
    ingestCore_duplicate_orderId_idempotent raceDb "ord1" (some "abc") (some 100) 0
      (by decide)⟩

/-! ## C3: uniqueness violation at insert time -/

/-- C3 counterexample: with a stale duplicate check (the list read by
`Sale.findOne` is empty) but a row with order id `ord1` already present
at insert time, ingestion surfaces `serverError` — the uncaught
duplicate-key rejection of `Sale.create` rendered as a 500 — instead of
the already-processed success the claim requires. -/
theorem insert_conflict_not_resolved_cex :
    ingestCore raceDb [] "ord1" (some "abc") (some 100) 0 =
      (.serverError, raceDb, []) ∧
    (ingestCore raceDb [] "ord1" (some "abc") (some 100) 0).1 ≠
      .alreadyProcessed demoSale.saleId := by
  refine ⟨by decide, ?_⟩
  intro h
  rw [show (ingestCore raceDb [] "ord1" (some "abc") (some 100) 0).1 =
    WebhookResponse.serverError from by decide] at h
  exact absurd h (by simp)

/-- C3 amended: a uniqueness violation first seen at insert time is not
resolved: when the duplicate check misses (stale read) but a row with the
same `orderId` exists in the ledger at insert time and the coupon
attributes, the ingestion returns `serverError` (an uncaught error, not
an already-processed success), leaves the ledger unchanged and attempts
no notification. Only a duplicate found by the pre-insert check is
resolved to the already-processed success. -/
theorem insert_conflict_surfaces_server_error (db : DB) (salesAtCheck : List Sale)
    (oid c : String) (v : Rat) (tx : Int)
    (hstale : findSaleByOrderId salesAtCheck oid = none)
    (hdup : (db.sales.filter (fun s => s.orderId = oid)).length ≠ 0)
    (hatt : (findUserByCoupon db c).isSome) :
    ingestCore db salesAtCheck oid (some c) (some v) tx = (.serverError, db, []) := by
  obtain ⟨u, hu⟩ := Option.isSome_iff_exists.mp hatt
  simp only [ingestCore, hstale, hu]
  simp [hdup]

/-- C3 amended witness: the amended theorem at the concrete race state. -/
theorem insert_conflict_surfaces_server_error_witness :
    (findSaleByOrderId ([] : List Sale) "ord1" = none ∧
     (raceDb.sales.filter (fun s => s.orderId = "ord1")).length ≠ 0 ∧
     (findUserByCoupon raceDb "abc").isSome) ∧
    ingestCore raceDb [] "ord1" (some "abc") (some 100) 0 =
      (.serverError, raceDb, []) :=
  ⟨⟨by decide, by decide, by decide⟩,
    insert_conflict_surfaces_server_error raceDb [] "ord1" "abc" 100 0
      (by decide) (by decide) (by decide)⟩

/-! ## C4: attribution miss -/

/-- C4 counterexample: a well-formed generic-path payload (order id and a
usable positive total present) whose coupon matches no influencer is
answered by `processSaleWebhook` with a thrown 400 error, not with a 2xx
not-attributed success. -/
theorem generic_webhook_unmatched_coupon_cex :
    processSaleWebhook raceDb raceDb.sales (some "ord2") (some 100) (some "zzz") 7 =
      (.badRequest, raceDb, []) ∧
    (processSaleWebhook raceDb raceDb.sales (some "ord2") (some 100) (some "zzz") 7).1 ≠
      .noInfluencer "zzz" := by
  refine ⟨by decide, ?_⟩
  intro h
  rw [show (processSaleWebhook raceDb raceDb.sales (some "ord2") (some 100)
      (some "zzz") 7).1 = WebhookResponse.badRequest from by decide] at h
  exact absurd h (by simp)

/-- C4 amended: a coupon matching no influencer (or an absent coupon) is a
2xx no-op that creates no sale row for the Shopify and CartPanda paths,
but the generic `processSaleWebhook` path instead throws a 400 error on
an unmatched coupon (still creating no sale row). -/
theorem webhook_attribution_miss_outcomes (db : DB) (salesAtCheck : List Sale)
    (oid c : String) (vOpt : Option Rat) (v : Rat) (tx now : Int)
    (hnodup : findSaleByOrderId salesAtCheck oid = none)
    (hmiss : findUserByCoupon db c = none) :
    ingestCore db salesAtCheck oid (some c) vOpt tx = (.noInfluencer c, db, []) ∧
    ingestCore db salesAtCheck oid none vOpt tx = (.noCoupon, db, []) ∧
    (oid ≠ "" → c ≠ "" → v ≠ 0 →
      processSaleWebhook db salesAtCheck (some oid) (some v) (some c) now =
        (.badRequest, db, [])) := by
  refine ⟨?_, ?_, ?_⟩
  · simp only [ingestCore, hnodup, hmiss]
  · simp only [ingestCore, hnodup]
  · intro hoid hc hv
    simp only [processSaleWebhook, strTruthy, Option.filter, if_neg hoid, if_neg hc,
      decide_eq_true_eq]
    simp only [hv, decide_not, ite_not]
    simp [hnodup, hmiss, hv]

/-- C4 amended witness: unmatched coupon `zzz` against the concrete
database, on all three paths. -/
theorem webhook_attribution_miss_outcomes_witness :
    (findSaleByOrderId raceDb.sales "ord2" = none ∧
     findUserByCoupon raceDb "zzz" = none) ∧
    (ingestCore raceDb raceDb.sales "ord2" (some "zzz") (some 100) 0 =
      (.noInfluencer "zzz", raceDb, []) ∧
    ingestCore raceDb raceDb.sales "ord2" none (some 100) 0 =
      (.noCoupon, raceDb, []) ∧
    (("ord2" : String) ≠ "" → ("zzz" : String) ≠ "" → (100 : Rat) ≠ 0 →
      processSaleWebhook raceDb raceDb.sales (some "ord2") (some 100) (some "zzz") 7 =
        (.badRequest, raceDb, []))) :=
  ⟨⟨by decide, by decide⟩,
    webhook_attribution_miss_outcomes raceDb raceDb.sales "ord2" "zzz"
      (some 100) 100 0 7 (by decide) (by decide)⟩

/-! ## C5: total-value normalization -/

/-- A Shopify order with a valid order id and a numeric total of `0`. -/
def shopifyZeroOrder : ShopifyOrder :=
  { id := some "123", order_number := none, name := none,
    total_price := some (.num 0), current_total_price := none,
    discount_codes := none, created_at := none }

/-- A Shopify payload wrapping `shopifyZeroOrder`. -/
def shopifyZeroBody : ShopifyBody := { order := some shopifyZeroOrder }

/-- A CartPanda order with a valid order id and a numeric total of `0`. -/
def cpZeroOrder : CPOrder :=
  { id := some "77", order_number := none, number := none, name := none,
    total_price := some (.num 0), discount_codes := none,
    processed_at := none, created_at := none }

/-- Helper: the shared post-normalization pipeline never answers with a
bad request — all 400 rejections happen during normalization. -/
theorem ingestCore_fst_ne_badRequest (db : DB) (salesAtCheck : List Sale)
    (oid : String) (coupon : Option String) (vOpt : Option Rat) (tx : Int) :
    (ingestCore db salesAtCheck oid coupon vOpt tx).1 ≠ .badRequest := by
  unfold ingestCore
  repeat' split
  all_goals simp

/-- C5 counterexample: a Shopify payload with a valid order id and the
parseable total `0` is rejected as malformed (400), because the source
tests the total for JS truthiness and `0` is falsy — so it is not true
that every adapter accepts a total of `0`. -/
theorem shopify_zero_total_rejected_cex :
    processShopifyWebhook raceDb raceDb.sales shopifyZeroBody 0 =
      (.badRequest, raceDb, []) := by decide

/-- C5 amended: only the CartPanda adapter normalizes totals as the claim
describes — numbers and currency strings (non-numeric characters
stripped) are both accepted and a numeric total of `0` with a valid order
id is never rejected as malformed. The Shopify adapter rejects every
falsy total (in particular the number `0`) and parses string totals
without stripping, so a currency-symbol string yields `NaN` there; the
generic adapter likewise rejects a total of `0` as incomplete data. -/
theorem webhook_total_normalization_amended :
    (∀ x : Rat, cartPandaTotal (some (.num x)) = some x) ∧
    (∀ s : String, cartPandaTotal (some (.str s)) = jsParseFloat (stripNonNumeric s)) ∧
    jsParseFloat "R$ 100" = none ∧
    jsParseFloat (stripNonNumeric "R$ 100") = some 100 ∧
    (∀ (db : DB) (sc : List Sale) (o : CPOrder) (oid : String) (x : Rat) (now : Int),
      firstTruthyStr [o.id, o.order_number, o.number, o.name] = some oid →
      o.total_price = some (.num x) →
      (processCartPandaWebhook db sc { order := some o, event := "order.paid" } now).1 ≠
        .badRequest) ∧
    (∀ (db : DB) (sc : List Sale) (o : ShopifyOrder) (now : Int),
      o.total_price = some (.num 0) → o.current_total_price = none →
      processShopifyWebhook db sc { order := some o } now = (.badRequest, db, [])) ∧
    (∀ (db : DB) (sc : List Sale) (oid c : Option String) (now : Int),
      processSaleWebhook db sc oid (some 0) c now = (.badRequest, db, [])) := by
  refine ⟨fun x => rfl, fun s => rfl, by decide,
    by simp +decide [jsParseFloat, stripNonNumeric, takeDigits, digitsToNat, fracValue],
    ?_, ?_, ?_⟩
  · intro db sc o oid x now h1 h2
    have hred : processCartPandaWebhook db sc { order := some o, event := "order.paid" } now =
        ingestCore db sc oid (strTruthy (cartPandaCoupon o.discount_codes)) (some x)
          ((intOr o.processed_at (intOr o.created_at (some now))).getD now) := by
      simp [processCartPandaWebhook, h1, h2, cartPandaTotal]
    rw [hred]
    exact ingestCore_fst_ne_badRequest db sc oid _ _ _
  · intro db sc o now h1 h2
    simp only [processShopifyWebhook, h1, h2]
    cases hf : firstTruthyStr [o.id, o.order_number, o.name] with
    | none => rfl
    | some oid => simp [jvalOr, jvTruthy]
  · intro db sc oid c now
    simp only [processSaleWebhook, Option.filter]
    cases strTruthy oid <;> cases strTruthy c <;> simp

/-- C5 amended witness: the universally quantified conjuncts instantiated
at a concrete CartPanda zero-total payload, a concrete Shopify zero-total
payload and a concrete generic zero-value call. -/
theorem webhook_total_normalization_amended_witness :
    (firstTruthyStr [some "77", none, none, (none : Option String)] = some "77" ∧
     (some (JsVal.num 0) : Option JsVal) = some (.num 0)) ∧
    ((processCartPandaWebhook raceDb raceDb.sales
        { order := some cpZeroOrder, event := "order.paid" } 0).1 ≠ .badRequest ∧
     processShopifyWebhook raceDb raceDb.sales shopifyZeroBody 0 =
       (.badRequest, raceDb, []) ∧
     processSaleWebhook raceDb raceDb.sales (some "ord9") (some 0) (some "abc") 0 =
       (.badRequest, raceDb, [])) :=
  ⟨⟨by decide, rfl⟩,
    webhook_total_normalization_amended.2.2.2.2.1 raceDb raceDb.sales
      cpZeroOrder "77" 0 0 (by decide) rfl,
    webhook_total_normalization_amended.2.2.2.2.2.1 raceDb raceDb.sales
      shopifyZeroOrder 0 rfl rfl,
    webhook_total_normalization_amended.2.2.2.2.2.2 raceDb raceDb.sales
      (some "ord9") (some "abc") 0⟩

/-! ## C6: CartPanda coupon encodings -/

/-- C6 counterexample: in an array whose first element has an empty
`code`, the extraction yields no coupon at all, even though a later
element carries the non-empty code `x` — the first **element** is
consulted, not the first non-empty code. -/
theorem cartpanda_first_element_empty_code_cex :
    strTruthy (cartPandaCoupon (some (.arr [.obj (some ""), .obj (some "x")]))) =
      none ∧
    strTruthy (cartPandaCoupon (some (.arr [.obj (some ""), .obj (some "x")]))) ≠
      some "x" := ⟨rfl, by decide⟩

/-- C6 amended: the three encodings — plain string, array whose first
element is an object with a `code` (or a plain string), and single object
with a `code` — all normalize a non-empty code `s` (with no surrounding
whitespace) to the same coupon `s`; only the **first array element** is
consulted (later elements never change the result); and an empty or
absent code, an empty array, or an absent field is treated as no
coupon. -/
theorem cartpanda_coupon_encodings_amended :
    (∀ s : String, s ≠ "" → jsTrim s = s →
      strTruthy (cartPandaCoupon (some (.str s))) = some s ∧
      strTruthy (cartPandaCoupon (some (.arr [.obj (some s)]))) = some s ∧
      strTruthy (cartPandaCoupon (some (.arr [.str s]))) = some s ∧
      strTruthy (cartPandaCoupon (some (.obj (some s)))) = some s) ∧
    (∀ (e : CPEntry) (rest : List CPEntry),
      cartPandaCoupon (some (.arr (e :: rest))) = cartPandaCoupon (some (.arr [e]))) ∧
    strTruthy (cartPandaCoupon (some (.arr [.obj (some "")]))) = none ∧
    strTruthy (cartPandaCoupon (some (.arr [.obj none]))) = none ∧
    strTruthy (cartPandaCoupon (some (.obj (some "")))) = none ∧
    strTruthy (cartPandaCoupon (some (.obj none))) = none ∧
    strTruthy (cartPandaCoupon none) = none ∧
    strTruthy (cartPandaCoupon (some (.arr []))) = none ∧
    strTruthy (cartPandaCoupon (some (.str ""))) = none := by
  refine ⟨?_, ?_, rfl, rfl, rfl, rfl, rfl, rfl, rfl⟩
  · intro s hs ht
    refine ⟨?_, ?_, ?_, ?_⟩ <;> simp [cartPandaCoupon, strTruthy, hs, ht]
  · intro e rest
    cases e <;> rfl

/-- C6 amended witness: the quantified conjuncts instantiated at the
concrete code `x` and a concrete two-element array. -/
theorem cartpanda_coupon_encodings_amended_witness :
    (("x" : String) ≠ "" ∧ jsTrim "x" = "x") ∧
    (strTruthy (cartPandaCoupon (some (.str "x"))) = some "x" ∧
     strTruthy (cartPandaCoupon (some (.arr [.obj (some "x")]))) = some "x" ∧
     strTruthy (cartPandaCoupon (some (.arr [.str "x"]))) = some "x" ∧
     strTruthy (cartPandaCoupon (some (.obj (some "x")))) = some "x") ∧
    cartPandaCoupon (some (.arr [.obj (some "y"), .str "z"])) =
      cartPandaCoupon (some (.arr [.obj (some "y")])) :=
  ⟨⟨by decide, by decide⟩,
    cartpanda_coupon_encodings_amended.1 "x" (by decide) (by decide),
    cartpanda_coupon_encodings_amended.2.1 (.obj (some "y")) [.str "z"]⟩

/-! ## C8: atomic bulk replacement of the tier table -/

/-- One entry of the `tiers` array submitted to `saveCommissionTiersBulk`
(src/unnamed/part_002): each field may be absent, a number or a string;
the source validates `minSalesValue` and `commissionPercentage` for
presence and numeric type, `maxSalesValue` for numeric type when present,
and `maxSalesValue > minSalesValue`. -/
structure TierInput where
  minSalesValue : Option JsVal
  maxSalesValue : Option JsVal
  commissionPercentage : Option JsVal
deriving DecidableEq, Repr

/-- The per-entry validation loop of `saveCommissionTiersBulk`: presence
and numeric type of `minSalesValue` and `commissionPercentage`, numeric
type of `maxSalesValue` when present, and `maxSalesValue >
minSalesValue`. -/
def validTierInput (t : TierInput) : Bool :=
  match t.minSalesValue, t.commissionPercentage with
  | some (.num mn), some (.num _) =>
    (match t.maxSalesValue with
     | none => true
     | some (.num mx) => decide (mn < mx)
     | some (.str _) => false)
  | _, _ => false

/-- An entry violating the numeric validation, as the claim phrases it:
a non-numeric (or absent) `minSalesValue` or `commissionPercentage`, a
non-numeric `maxSalesValue`, or `maxSalesValue ≤ minSalesValue`. -/
def badTierEntry (t : TierInput) : Prop :=
  (∀ x, t.minSalesValue ≠ some (.num x)) ∨
  (∀ x, t.commissionPercentage ≠ some (.num x)) ∨
  (∃ s, t.maxSalesValue = some (.str s)) ∨
  (∃ mn mx, t.minSalesValue = some (.num mn) ∧ t.maxSalesValue = some (.num mx) ∧
    mx ≤ mn)

theorem validTierInput_eq_false_of_bad (t : TierInput) (h : badTierEntry t) :
    validTierInput t = false := by
  unfold validTierInput
  rcases h with h | h | h | h
  · cases hmn : t.minSalesValue with
    | none => rfl
    | some v =>
      cases v with
      | num x => exact absurd hmn (h x)
      | str s => cases t.commissionPercentage <;> rfl
  · cases hpc : t.commissionPercentage with
    | none => cases t.minSalesValue with
      | none => rfl
      | some v => cases v <;> rfl
    | some v =>
      cases v with
      | num x => exact absurd hpc (h x)
      | str s => cases t.minSalesValue with
        | none => rfl
        | some w => cases w <;> rfl
  · obtain ⟨s, hs⟩ := h
    rw [hs]
    cases t.minSalesValue with
    | none => rfl
    | some v => cases v with
      | num x => cases t.commissionPercentage with
        | none => rfl
        | some w => cases w <;> rfl
      | str u => cases t.commissionPercentage <;> rfl
  · obtain ⟨mn, mx, h1, h2, h3⟩ := h
    rw [h1, h2]
    cases t.commissionPercentage with
    | none => rfl
    | some v => cases v with
      | num x => simp [not_lt_of_le h3]
      | str s => rfl

/-- The generated display name for a bulk-inserted tier. The source
renders the bounds with pt-BR currency formatting via `toLocaleString`;
the exact rendering affects nothing, so the bounds are printed plainly
here. -/
def tierGeneratedName (mn : Rat) (mx : Option Rat) : String :=
  match mx with
  | some m => "Faixa " ++ toString mn ++ " a " ++ toString m
  | none => "Faixa acima de " ++ toString mn

/-- The row built for one validated input entry: generated name, the
submitted bounds and percentage, the requested role, `isActive := true`.
The numeric extractions can only see validated entries, so the `0`
defaults are unreachable. -/
def mkBulkTier (role : Role) (t : TierInput) : CommissionTier :=
  let mn := match t.minSalesValue with | some (.num x) => x | _ => 0
  let pc := match t.commissionPercentage with | some (.num x) => x | _ => 0
  let mx := match t.maxSalesValue with | some (.num x) => some x | _ => none
  { name := tierGeneratedName mn mx, minSalesValue := mn, maxSalesValue := mx,
    commissionPercentage := pc, appliesTo := role, isActive := true }

/-- Result of `saveCommissionTiersBulk` as seen by the caller. -/
inductive BulkResult where
  | validationError
  | persistError
  | ok
deriving DecidableEq, Repr

/-- `saveCommissionTiersBulk` (src/unnamed/part_002, lines 351–424):
reject a missing or non-array `tiers` field and any entry failing the
numeric validation before touching storage; then, inside a mongoose
transaction, delete every tier of the role and insert the new set.
`persistOk` models whether the transactional delete+insert commits; on
failure the transaction is aborted (`session.abortTransaction`), so the
state is returned unchanged and the error propagates. The `appliesTo`
validity check of the source is subsumed by the typed `Role`. -/
def saveCommissionTiersBulk (db : DB) (role : Role)
    (tiers : Option (List TierInput)) (persistOk : Bool) : BulkResult × DB :=
  match tiers with
  | none => (.validationError, db)
  | some ts =>
    if ts.all validTierInput then
      if persistOk then
        (.ok, { db with tiers :=
          db.tiers.filter (fun t => ¬ t.appliesTo = role) ++ ts.map (mkBulkTier role) })
      else (.persistError, db)
    else (.validationError, db)

/-- C8: tier bulk-replace is all-or-nothing — any entry with a
non-numeric `minSalesValue`, `commissionPercentage` or `maxSalesValue`,
or with `maxSalesValue ≤ minSalesValue`, makes the operation return a
validation error with the whole state (in particular the role's existing
tier rows) unchanged; and any persistence failure during the
transactional delete+insert likewise leaves the state unchanged. -/
theorem saveCommissionTiersBulk_atomic (db : DB) (role : Role)
    (ts : List TierInput) (persistOk : Bool)
    (hbad : ∃ t ∈ ts, badTierEntry t) :
    saveCommissionTiersBulk db role (some ts) persistOk = (.validationError, db) ∧
    ∀ ts2 : List TierInput, (saveCommissionTiersBulk db role (some ts2) false).2 = db := by
  constructor
  · obtain ⟨t, ht, hb⟩ := hbad
    have hall : ts.all validTierInput = false := by
      rw [List.all_eq_false]
      exact ⟨t, ht, by simp [validTierInput_eq_false_of_bad t hb]⟩
    simp [saveCommissionTiersBulk, hall]
  · intro ts2
    by_cases h : ts2.all validTierInput <;> simp [saveCommissionTiersBulk, h]

/-- C8 witness: a concrete submission whose single entry has
`maxSalesValue = minSalesValue = 5`. -/
theorem saveCommissionTiersBulk_atomic_witness :
    (∃ t ∈ [{ minSalesValue := some (.num 5), maxSalesValue := some (.num 5),
              commissionPercentage := some (.num 10) : TierInput }], badTierEntry t) ∧
    (saveCommissionTiersBulk raceDb Role.influencer
        (some [{ minSalesValue := some (.num 5), maxSalesValue := some (.num 5),
                 commissionPercentage := some (.num 10) : TierInput }]) true =
      (.validationError, raceDb) ∧
    ∀ ts2 : List TierInput,
      (saveCommissionTiersBulk raceDb Role.influencer (some ts2) false).2 = raceDb) :=
  ⟨⟨_, List.mem_singleton.mpr rfl,
      Or.inr (Or.inr (Or.inr ⟨5, 5, rfl, rfl, le_refl 5⟩))⟩,
    saveCommissionTiersBulk_atomic raceDb Role.influencer _ true
      ⟨_, List.mem_singleton.mpr rfl,
        Or.inr (Or.inr (Or.inr ⟨5, 5, rfl, rfl, le_refl 5⟩))⟩⟩

/-! ## Pending-commission backfill and payment generation -/

/-- One iteration of the `processPendingCommissions` loop on a sale: an
already-calculated sale is untouched; a pending one gets both commission
fields computed from the current tier table (manager commission `0` when
the sale has no manager) and `commissionCalculated := true`. -/
def backfillSale (tiers : List CommissionTier) (s : Sale) : Sale :=
  if s.commissionCalculated then s
  else
    { s with commissionCalculated := true,
             influencerCommissionEarned :=
               some (calculateCommission tiers s.saleValue .influencer),
             managerCommissionEarned :=
               some (match s.manager with
                 | some _ => calculateCommission tiers s.saleValue .manager
                 | none => 0) }

/-- `processPendingCommissions` (src/unnamed/part_001): sweep every sale
with `commissionCalculated = false`, computing and persisting its
commissions; returns the processed count and the summed influencer and
manager commissions. -/
def processPendingCommissions (db : DB) : DB × Nat × Rat × Rat :=
  let pending := db.sales.filter (fun s => ¬ s.commissionCalculated)
  ({ db with sales := db.sales.map (backfillSale db.tiers) },
    pending.length,
    (pending.map (fun s => calculateCommission db.tiers s.saleValue .influencer)).sum,
    (pending.map (fun s =>
      match s.manager with
      | some _ => calculateCommission db.tiers s.saleValue .manager
      | none => 0)).sum)

/-- The date-range filter of the payment generator:
`transactionDate ∈ [periodStart, periodEnd]` (both inclusive, `$gte` /
`$lte`). -/
def saleInRange (ps pe : Int) (s : Sale) : Bool :=
  decide (ps ≤ s.transactionDate) && decide (s.transactionDate ≤ pe)

/-- First occurrences of the keys of the grouping maps
(`influencerSalesMap` / `managerSalesMap` are insertion-ordered JS
`Map`s): each key once, in order of first appearance. -/
def dedupFirstAux : List Nat → List Nat → List Nat
  | [], _ => []
  | x :: xs, seen =>
    if x ∈ seen then dedupFirstAux xs seen else x :: dedupFirstAux xs (x :: seen)

/-- The distinct keys in order of first appearance. -/
def dedupFirst (l : List Nat) : List Nat := dedupFirstAux l []

/-- The payment row created for one influencer group: sums of the group
`saleValue`s and `influencerCommissionEarned`s (absent commission read as
`0`, the `|| 0` of the source) and the list of folded sale ids, with
`status = pending`. -/
def mkInfluencerPayment (ps pe : Int) (uid : Nat) (group : List Sale) :
    CommissionPayment :=
  { user := uid, roleAtPayment := .influencer,
    sales := group.map (·.saleId),
    totalSalesValue := (group.map (·.saleValue)).sum,
    commissionEarned := (group.map (fun s => s.influencerCommissionEarned.getD 0)).sum,
    paymentPeriodStart := ps, paymentPeriodEnd := pe, status := .pending }

/-- The payment row created for one manager group, summing
`managerCommissionEarned`. -/
def mkManagerPayment (ps pe : Int) (mid : Nat) (group : List Sale) :
    CommissionPayment :=
  { user := mid, roleAtPayment := .manager,
    sales := group.map (·.saleId),
    totalSalesValue := (group.map (·.saleValue)).sum,
    commissionEarned := (group.map (fun s => s.managerCommissionEarned.getD 0)).sum,
    paymentPeriodStart := ps, paymentPeriodEnd := pe, status := .pending }

/-- The in-range, commission-calculated sales the generator groups. -/
def gcpSales (db : DB) (ps pe : Int) : List Sale :=
  db.sales.filter (fun s => saleInRange ps pe s && s.commissionCalculated)

/-- The influencer payment batch: one payment per distinct `influencer`
key of the in-range calculated sales, skipping keys whose user no longer
exists (the `if (!influencer) continue` of the source; a dangling
reference is also dropped by `populate` at grouping time, which is the
same condition). -/
def genInfluencerPayments (db : DB) (ps pe : Int) : List CommissionPayment :=
  (dedupFirst ((gcpSales db ps pe).map (·.influencer))).filterMap (fun uid =>
    (findUserById db uid).map (fun _ =>
      mkInfluencerPayment ps pe uid
        ((gcpSales db ps pe).filter (fun s => s.influencer = uid))))

/-- The manager payment batch: one payment per distinct captured
`manager` key of the in-range calculated sales. -/
def genManagerPayments (db : DB) (ps pe : Int) : List CommissionPayment :=
  (dedupFirst ((gcpSales db ps pe).filterMap (·.manager))).filterMap (fun mid =>
    (findUserById db mid).map (fun _ =>
      mkManagerPayment ps pe mid
        ((gcpSales db ps pe).filter (fun s => s.manager = some mid))))

/-- The precondition pass of `generateCommissionPayments`: when any
in-range sale is still uncalculated, run the pending-commission sweep
first. -/
def gcpBase (db : DB) (ps pe : Int) : DB :=
  if db.sales.any (fun s => saleInRange ps pe s && ¬ s.commissionCalculated)
  then (processPendingCommissions db).1 else db

/-- `generateCommissionPayments` (src/unnamed/part_001, lines 73–210):
backfill if needed, then append one pending payment per influencer group
and one per manager group. The returned summary counts and the
report-notification side effects (failures of which are swallowed) do
not touch the state and are not modelled. -/
def generateCommissionPayments (db : DB) (ps pe : Int) : DB :=
  let db0 := gcpBase db ps pe
  { db0 with payments :=
      db0.payments ++ genInfluencerPayments db0 ps pe ++ genManagerPayments db0 ps pe }

theorem mem_dedupFirstAux : ∀ (l seen : List Nat) (a : Nat),
    a ∈ dedupFirstAux l seen ↔ (a ∈ l ∧ a ∉ seen)
  | [], seen, a => by simp [dedupFirstAux]
  | x :: xs, seen, a => by
    by_cases hx : x ∈ seen
    · rw [show dedupFirstAux (x :: xs) seen = dedupFirstAux xs seen from by
        simp [dedupFirstAux, hx]]
      rw [mem_dedupFirstAux xs seen a]
      constructor
      · rintro ⟨h1, h2⟩
        exact ⟨List.mem_cons_of_mem _ h1, h2⟩
      · rintro ⟨h1, h2⟩
        rcases List.mem_cons.mp h1 with rfl | h1
        · exact absurd hx h2
        · exact ⟨h1, h2⟩
    · rw [show dedupFirstAux (x :: xs) seen = x :: dedupFirstAux xs (x :: seen) from by
        simp [dedupFirstAux, hx]]
      by_cases hax : a = x
      · subst hax
        simp [hx]
      · simp only [List.mem_cons, mem_dedupFirstAux xs (x :: seen) a]
        constructor
        · rintro (rfl | ⟨h1, h2⟩)
          · exact absurd rfl hax
          · exact ⟨.inr h1, fun hs => h2 (.inr hs)⟩
        · rintro ⟨rfl | h1, h2⟩
          · exact absurd rfl hax
          · refine .inr ⟨h1, ?_⟩
            rintro (rfl | hs)
            · exact hax rfl
            · exact h2 hs

theorem nodup_dedupFirstAux : ∀ (l seen : List Nat), (dedupFirstAux l seen).Nodup
  | [], _ => by simp [dedupFirstAux]
  | x :: xs, seen => by
    by_cases hx : x ∈ seen
    · rw [show dedupFirstAux (x :: xs) seen = dedupFirstAux xs seen from by
        simp [dedupFirstAux, hx]]
      exact nodup_dedupFirstAux xs seen
    · rw [show dedupFirstAux (x :: xs) seen = x :: dedupFirstAux xs (x :: seen) from by
        simp [dedupFirstAux, hx]]
      refine List.nodup_cons.mpr ⟨?_, nodup_dedupFirstAux xs (x :: seen)⟩
      intro hmem
      exact ((mem_dedupFirstAux xs (x :: seen) x).mp hmem).2 (List.mem_cons_self x seen)

theorem mem_dedupFirst (l : List Nat) (a : Nat) : a ∈ dedupFirst l ↔ a ∈ l := by
  simp [dedupFirst, mem_dedupFirstAux]

theorem nodup_dedupFirst (l : List Nat) : (dedupFirst l).Nodup :=
  nodup_dedupFirstAux l []

theorem length_filter_user_filterMap (keys : List Nat) (uid : Nat)
    (f : Nat → Option CommissionPayment)
    (hu : ∀ k p, f k = some p → p.user = k)
    (hnd : keys.Nodup) :
    ((keys.filterMap f).filter (fun p => p.user = uid)).length =
      if uid ∈ keys ∧ (f uid).isSome then 1 else 0 := by
  induction keys with
  | nil => simp
  | cons k ks ih =>
    rcases List.nodup_cons.mp hnd with ⟨hknotin, hndks⟩
    rw [List.filterMap_cons]
    cases hf : f k with
    | none =>
      rw [ih hndks]
      by_cases hak : uid = k
      · subst hak
        simp [hf, hknotin]
      · simp [hak, Ne.symm hak]
    | some p =>
      have hpu : p.user = k := hu k p hf
      rw [List.filter_cons]
      by_cases hak : uid = k
      · subst hak
        rw [if_pos (by simp [hpu]), List.length_cons, ih hndks]
        simp [hf, hknotin]
      · rw [if_neg (by simp [hpu, Ne.symm hak]), ih hndks]
        simp [hak, Ne.symm hak]

theorem mem_gcpSales {db : DB} {ps pe : Int} {s : Sale} :
    s ∈ gcpSales db ps pe ↔
      s ∈ db.sales ∧ saleInRange ps pe s = true ∧ s.commissionCalculated = true := by
  simp [gcpSales, List.mem_filter, Bool.and_eq_true, and_assoc]

theorem mem_genInfluencerPayments {db : DB} {ps pe : Int} {p : CommissionPayment} :
    p ∈ genInfluencerPayments db ps pe ↔
      ∃ uid, uid ∈ dedupFirst ((gcpSales db ps pe).map (·.influencer)) ∧
        (findUserById db uid).isSome ∧
        p = mkInfluencerPayment ps pe uid
          ((gcpSales db ps pe).filter (fun s => s.influencer = uid)) := by
  constructor
  · intro hp
    obtain ⟨uid, huid, hf⟩ := List.mem_filterMap.mp hp
    obtain ⟨u, hu, hmk⟩ := Option.map_eq_some'.mp hf
    exact ⟨uid, huid, by simp [hu], hmk.symm⟩
  · rintro ⟨uid, huid, hs, rfl⟩
    apply List.mem_filterMap.mpr
    obtain ⟨u, hu⟩ := Option.isSome_iff_exists.mp hs
    exact ⟨uid, huid, by simp [hu]⟩

theorem mem_genManagerPayments {db : DB} {ps pe : Int} {p : CommissionPayment} :
    p ∈ genManagerPayments db ps pe ↔
      ∃ mid, mid ∈ dedupFirst ((gcpSales db ps pe).filterMap (·.manager)) ∧
        (findUserById db mid).isSome ∧
        p = mkManagerPayment ps pe mid
          ((gcpSales db ps pe).filter (fun s => s.manager = some mid)) := by
  constructor
  · intro hp
    obtain ⟨mid, hmid, hf⟩ := List.mem_filterMap.mp hp
    obtain ⟨u, hu, hmk⟩ := Option.map_eq_some'.mp hf
    exact ⟨mid, hmid, by simp [hu], hmk.symm⟩
  · rintro ⟨mid, hmid, hs, rfl⟩
    apply List.mem_filterMap.mpr
    obtain ⟨u, hu⟩ := Option.isSome_iff_exists.mp hs
    exact ⟨mid, hmid, by simp [hu]⟩

theorem genInfluencerPayments_role {db : DB} {ps pe : Int} {p : CommissionPayment}
    (hp : p ∈ genInfluencerPayments db ps pe) : p.roleAtPayment = .influencer := by
  obtain ⟨uid, _, _, rfl⟩ := mem_genInfluencerPayments.mp hp
  rfl

theorem genManagerPayments_role {db : DB} {ps pe : Int} {p : CommissionPayment}
    (hp : p ∈ genManagerPayments db ps pe) : p.roleAtPayment = .manager := by
  obtain ⟨mid, _, _, rfl⟩ := mem_genManagerPayments.mp hp
  rfl

theorem gcpBase_eq_self {db : DB} {ps pe : Int}
    (hcalc : ∀ s ∈ db.sales, saleInRange ps pe s = true →
      s.commissionCalculated = true) :
    gcpBase db ps pe = db := by
  have hany : db.sales.any (fun s => saleInRange ps pe s && ¬ s.commissionCalculated) =
      false := by
    rw [List.any_eq_false]
    intro s hsmem
    cases hI : saleInRange ps pe s with
    | false => simp [hI]
    | true => simp [hI, hcalc s hsmem hI]
  unfold gcpBase
  rw [hany]
  rfl

theorem count_influencer_payments (db : DB) (ps pe : Int) (uid : Nat)
    (hinf : ∀ s ∈ gcpSales db ps pe, (findUserById db s.influencer).isSome) :
    ((genInfluencerPayments db ps pe ++ genManagerPayments db ps pe).filter
        (fun p => p.user = uid ∧ p.roleAtPayment = Role.influencer)).length =
      if (gcpSales db ps pe).filter (fun s => s.influencer = uid) ≠ [] then 1
      else 0 := by
  rw [List.filter_append]
  have hmgr : (genManagerPayments db ps pe).filter
      (fun p => p.user = uid ∧ p.roleAtPayment = Role.influencer) = [] := by
    rw [List.filter_eq_nil_iff]
    intro p hp
    simp [genManagerPayments_role hp]
  have hcong : (genInfluencerPayments db ps pe).filter
      (fun p => p.user = uid ∧ p.roleAtPayment = Role.influencer) =
      (genInfluencerPayments db ps pe).filter (fun p => p.user = uid) := by
    apply List.filter_congr
    intro p hp
    simp [genInfluencerPayments_role hp]
  rw [hmgr, hcong, List.append_nil, genInfluencerPayments,
    length_filter_user_filterMap _ uid _
      (fun k p hf => by
        obtain ⟨u, _, hmk⟩ := Option.map_eq_some'.mp hf
        rw [← hmk]
        rfl)
      (nodup_dedupFirst _)]
  refine if_congr ?_ rfl rfl
  constructor
  · rintro ⟨hk, _⟩
    rw [mem_dedupFirst] at hk
    obtain ⟨s, hsS, hsuid⟩ := List.mem_map.mp hk
    intro hnil
    rw [List.filter_eq_nil_iff] at hnil
    exact hnil s hsS (by simp [hsuid])
  · intro hne
    obtain ⟨x, hx⟩ := List.exists_mem_of_ne_nil _ hne
    rcases List.mem_filter.mp hx with ⟨hxS, hxuid⟩
    have hxuid : x.influencer = uid := by simpa using hxuid
    constructor
    · rw [mem_dedupFirst]
      exact List.mem_map.mpr ⟨x, hxS, hxuid⟩
    · have := hinf x hxS
      rw [hxuid] at this
      simpa using this

theorem count_manager_payments (db : DB) (ps pe : Int) (mid : Nat)
    (hmgrs : ∀ s ∈ gcpSales db ps pe, ∀ m, s.manager = some m →
      (findUserById db m).isSome) :
    ((genInfluencerPayments db ps pe ++ genManagerPayments db ps pe).filter
        (fun p => p.user = mid ∧ p.roleAtPayment = Role.manager)).length =
      if (gcpSales db ps pe).filter (fun s => s.manager = some mid) ≠ [] then 1
      else 0 := by
  rw [List.filter_append]
  have hinf : (genInfluencerPayments db ps pe).filter
      (fun p => p.user = mid ∧ p.roleAtPayment = Role.manager) = [] := by
    rw [List.filter_eq_nil_iff]
    intro p hp
    simp [genInfluencerPayments_role hp]
  have hcong : (genManagerPayments db ps pe).filter
      (fun p => p.user = mid ∧ p.roleAtPayment = Role.manager) =
      (genManagerPayments db ps pe).filter (fun p => p.user = mid) := by
    apply List.filter_congr
    intro p hp
    simp [genManagerPayments_role hp]
  rw [hinf, hcong, List.nil_append, genManagerPayments,
    length_filter_user_filterMap _ mid _
      (fun k p hf => by
        obtain ⟨u, _, hmk⟩ := Option.map_eq_some'.mp hf
        rw [← hmk]
        rfl)
      (nodup_dedupFirst _)]
  refine if_congr ?_ rfl rfl
  constructor
  · rintro ⟨hk, _⟩
    rw [mem_dedupFirst] at hk
    obtain ⟨s, hsS, hsm⟩ := List.mem_filterMap.mp hk
    intro hnil
    rw [List.filter_eq_nil_iff] at hnil
    exact hnil s hsS (by simp [hsm])
  · intro hne
    obtain ⟨x, hx⟩ := List.exists_mem_of_ne_nil _ hne
    rcases List.mem_filter.mp hx with ⟨hxS, hxm⟩
    have hxm : x.manager = some mid := by simpa using hxm
    constructor
    · rw [mem_dedupFirst]
      exact List.mem_filterMap.mpr ⟨x, hxS, hxm⟩
    · simpa using hmgrs x hxS mid hxm

/-- C7: with every in-range sale already commission-calculated (the state
the precondition pass establishes) and every referenced user present,
`generateCommissionPayments` appends exactly one pending payment per
(user, role) group of the in-range calculated sales — grouped by
`influencer` for the influencer role and by the captured `manager` for
the manager role — and each appended payment carries the sum of the
group sale values as `totalSalesValue`, the sum of the role-appropriate
commission field as `commissionEarned`, and exactly the group sale ids
as `sales`. -/
theorem generateCommissionPayments_grouping (db : DB) (ps pe : Int)
    (hcalc : ∀ s ∈ db.sales, saleInRange ps pe s = true →
      s.commissionCalculated = true)
    (husers : ∀ s ∈ db.sales, saleInRange ps pe s = true →
      (findUserById db s.influencer).isSome ∧
      (∀ mid, s.manager = some mid → (findUserById db mid).isSome)) :
    generateCommissionPayments db ps pe =
      { db with payments := db.payments ++
          genInfluencerPayments db ps pe ++ genManagerPayments db ps pe } ∧
    (∀ uid : Nat,
      ((genInfluencerPayments db ps pe ++ genManagerPayments db ps pe).filter
          (fun p => p.user = uid ∧ p.roleAtPayment = Role.influencer)).length =
        if (gcpSales db ps pe).filter (fun s => s.influencer = uid) ≠ [] then 1
        else 0) ∧
    (∀ mid : Nat,
      ((genInfluencerPayments db ps pe ++ genManagerPayments db ps pe).filter
          (fun p => p.user = mid ∧ p.roleAtPayment = Role.manager)).length =
        if (gcpSales db ps pe).filter (fun s => s.manager = some mid) ≠ [] then 1
        else 0) ∧
    (∀ p ∈ genInfluencerPayments db ps pe,
      p.roleAtPayment = Role.influencer ∧ p.status = .pending ∧
      p.paymentPeriodStart = ps ∧ p.paymentPeriodEnd = pe ∧
      p.sales = ((gcpSales db ps pe).filter
        (fun s => s.influencer = p.user)).map (·.saleId) ∧
      p.totalSalesValue = (((gcpSales db ps pe).filter
        (fun s => s.influencer = p.user)).map (·.saleValue)).sum ∧
      p.commissionEarned = (((gcpSales db ps pe).filter
        (fun s => s.influencer = p.user)).map
          (fun s => s.influencerCommissionEarned.getD 0)).sum) ∧
    (∀ p ∈ genManagerPayments db ps pe,
      p.roleAtPayment = Role.manager ∧ p.status = .pending ∧
      p.paymentPeriodStart = ps ∧ p.paymentPeriodEnd = pe ∧
      p.sales = ((gcpSales db ps pe).filter
        (fun s => s.manager = some p.user)).map (·.saleId) ∧
      p.totalSalesValue = (((gcpSales db ps pe).filter
        (fun s => s.manager = some p.user)).map (·.saleValue)).sum ∧
      p.commissionEarned = (((gcpSales db ps pe).filter
        (fun s => s.manager = some p.user)).map
          (fun s => s.managerCommissionEarned.getD 0)).sum) := by
  have hinf : ∀ s ∈ gcpSales db ps pe, (findUserById db s.influencer).isSome := by
    intro s hs
    rcases mem_gcpSales.mp hs with ⟨h1, h2, _⟩
    exact (husers s h1 h2).1
  have hmgrs : ∀ s ∈ gcpSales db ps pe, ∀ m, s.manager = some m →
      (findUserById db m).isSome := by
    intro s hs m hm
    rcases mem_gcpSales.mp hs with ⟨h1, h2, _⟩
    exact (husers s h1 h2).2 m hm
  refine ⟨?_, fun uid => count_influencer_payments db ps pe uid hinf,
    fun mid => count_manager_payments db ps pe mid hmgrs, ?_, ?_⟩
  · unfold generateCommissionPayments
    rw [gcpBase_eq_self hcalc]
  · intro p hp
    obtain ⟨uid, _, _, rfl⟩ := mem_genInfluencerPayments.mp hp
    exact ⟨rfl, rfl, rfl, rfl, rfl, rfl, rfl⟩
  · intro p hp
    obtain ⟨mid, _, _, rfl⟩ := mem_genManagerPayments.mp hp
    exact ⟨rfl, rfl, rfl, rfl, rfl, rfl, rfl⟩

/-- First of three in-period sales of the aggregation example. -/
def c7Sale1 : Sale :=
  { saleId := 1, influencer := 1, manager := none, orderId := "c7a",
    saleValue := 100, commissionCalculated := true,
    influencerCommissionEarned := some 10, managerCommissionEarned := some 0,
    couponCodeUsed := some "abc", transactionDate := 1,
    processedViaWebhook := true }

/-- Second sale of the aggregation example. -/
def c7Sale2 : Sale :=
  { saleId := 2, influencer := 1, manager := none, orderId := "c7b",
    saleValue := 200, commissionCalculated := true,
    influencerCommissionEarned := some 20, managerCommissionEarned := some 0,
    couponCodeUsed := some "abc", transactionDate := 2,
    processedViaWebhook := true }

/-- Third sale of the aggregation example. -/
def c7Sale3 : Sale :=
  { saleId := 3, influencer := 1, manager := none, orderId := "c7c",
    saleValue := 300, commissionCalculated := true,
    influencerCommissionEarned := some 30, managerCommissionEarned := some 0,
    couponCodeUsed := some "abc", transactionDate := 3,
    processedViaWebhook := true }

/-- The concrete state of the aggregation example: one influencer, three
calculated in-period sales of 100/200/300 with influencer commissions
10/20/30. -/
def c7Db : DB :=
  { users := [demoInfluencer], tiers := demoTiers,
    sales := [c7Sale1, c7Sale2, c7Sale3], payments := [], nextSaleId := 4 }

/-- C7 witness: the theorem applied to the concrete example state, plus
the resulting single payment evaluated: `totalSalesValue = 600`,
`commissionEarned = 60`, `sales = [1, 2, 3]`. -/
theorem generateCommissionPayments_grouping_witness :
    (∀ s ∈ c7Db.sales, saleInRange 0 10 s = true →
      s.commissionCalculated = true) ∧
    (∀ s ∈ c7Db.sales, saleInRange 0 10 s = true →
      (findUserById c7Db s.influencer).isSome ∧
      (∀ mid, s.manager = some mid → (findUserById c7Db mid).isSome)) ∧
    (((genInfluencerPayments c7Db 0 10 ++ genManagerPayments c7Db 0 10).filter
        (fun p => p.user = 1 ∧ p.roleAtPayment = Role.influencer)).length =
      if (gcpSales c7Db 0 10).filter (fun s => s.influencer = 1) ≠ [] then 1
      else 0) ∧
    (genInfluencerPayments c7Db 0 10).map
        (fun p => (p.user, p.sales, p.totalSalesValue, p.commissionEarned)) =
      [(1, [1, 2, 3], 600, 60)] := by
  refine ⟨by decide, by decide,
    (generateCommissionPayments_grouping c7Db 0 10 (by decide) (by decide)).2.1 1,
    ?_⟩
  simp +decide [genInfluencerPayments, gcpSales, saleInRange, c7Db, c7Sale1,
    c7Sale2, c7Sale3, dedupFirst, dedupFirstAux, findUserById, demoInfluencer,
    mkInfluencerPayment]
  norm_num

/-! ## C9: double counting across payment-generation calls -/

/-- Two payment rows for the same payee and role that share at least one
folded sale id — the double counting the invariant forbids. -/
def sharesSaleSameUserRole (p q : CommissionPayment) : Bool :=
  decide (p.user = q.user) && decide (p.roleAtPayment = q.roleAtPayment) &&
    p.sales.any (fun i => decide (i ∈ q.sales))

/-- Whether some pair of distinct rows of the payment table double-counts
a sale. -/
def doubleCounted : List CommissionPayment → Bool
  | [] => false
  | p :: ps => ps.any (sharesSaleSameUserRole p) || doubleCounted ps

/-- States reachable from a given state by any sequence of ingestions
(through any of the three webhook entry points, run sequentially) and
payment-generation calls. -/
inductive Reachable : DB → DB → Prop where
  | refl (db : DB) : Reachable db db
  | ingestShopify (a b : DB) (body : ShopifyBody) (now : Int)
      (h : Reachable a b) :
      Reachable a (processShopifyWebhook b b.sales body now).2.1
  | ingestCartPanda (a b : DB) (body : CPBody) (now : Int)
      (h : Reachable a b) :
      Reachable a (processCartPandaWebhook b b.sales body now).2.1
  | ingestGeneric (a b : DB) (orderId : Option String) (orderValue : Option Rat)
      (couponCode : Option String) (now : Int) (h : Reachable a b) :
      Reachable a (processSaleWebhook b b.sales orderId orderValue couponCode now).2.1
  | generatePayments (a b : DB) (ps pe : Int) (h : Reachable a b) :
      Reachable a (generateCommissionPayments b ps pe)

/-- The starting state of the double-counting scenario: one influencer,
the demo tier table, no sales, no payments. -/
def c9Start : DB :=
  { users := [demoInfluencer], tiers := demoTiers, sales := [], payments := [],
    nextSaleId := 0 }

/-- The state after ingesting one attributed sale. -/
def c9Mid : DB :=
  (processSaleWebhook c9Start c9Start.sales (some "o1") (some 100)
    (some "abc") 5).2.1

/-- The state after running the payment generator twice over the same
period. -/
def c9Final : DB :=
  generateCommissionPayments (generateCommissionPayments c9Mid 0 10) 0 10

/-- C9 counterexample: a reachable state — ingest one sale, then run
`GenerateCommissionPayments` twice with the identical period — in which
the single sale id appears in the sales sets of two distinct payment
rows for the same (user, roleAtPayment): the generator neither excludes
already-batched sales nor restricts periods. -/
theorem payment_double_count_cex :
    Reachable c9Start c9Final ∧ doubleCounted c9Final.payments = true := by
  constructor
  · exact .generatePayments _ _ 0 10 (.generatePayments _ _ 0 10
      (.ingestGeneric _ _ (some "o1") (some 100) (some "abc") 5 (.refl c9Start)))
  · decide

theorem doubleCounted_eq_false {l : List CommissionPayment} :
    doubleCounted l = false ↔
      l.Pairwise (fun p q => sharesSaleSameUserRole p q = false) := by
  induction l with
  | nil => simp [doubleCounted]
  | cons p ps ih =>
    rw [List.pairwise_cons, ← ih]
    simp [doubleCounted, List.any_eq_false]

theorem sharesSale_eq_false_of_user {p q : CommissionPayment}
    (h : p.user ≠ q.user) : sharesSaleSameUserRole p q = false := by
  simp [sharesSaleSameUserRole, h]

theorem sharesSale_eq_false_of_role {p q : CommissionPayment}
    (h : p.roleAtPayment ≠ q.roleAtPayment) :
    sharesSaleSameUserRole p q = false := by
  simp [sharesSaleSameUserRole, h]

theorem sharesSale_eq_false_of_disjoint {p q : CommissionPayment}
    (h : ∀ i ∈ p.sales, i ∉ q.sales) : sharesSaleSameUserRole p q = false := by
  have : p.sales.any (fun i => decide (i ∈ q.sales)) = false := by
    rw [List.any_eq_false]
    intro i hi
    simp [h i hi]
  simp [sharesSaleSameUserRole, this]

theorem pairwise_user_filterMap (keys : List Nat)
    (f : Nat → Option CommissionPayment)
    (hu : ∀ k p, f k = some p → p.user = k) (hnd : keys.Nodup) :
    (keys.filterMap f).Pairwise (fun p q => p.user ≠ q.user) := by
  induction keys with
  | nil => simp
  | cons k ks ih =>
    rcases List.nodup_cons.mp hnd with ⟨hknotin, hndks⟩
    rw [List.filterMap_cons]
    cases hf : f k with
    | none => exact ih hndks
    | some p =>
      refine List.pairwise_cons.mpr ⟨?_, ih hndks⟩
      intro q hq
      obtain ⟨k2, hk2, hfk2⟩ := List.mem_filterMap.mp hq
      rw [hu k p hf, hu k2 q hfk2]
      intro hkk
      exact hknotin (hkk ▸ hk2)

theorem batch_noShared (db : DB) (ps pe : Int) :
    (genInfluencerPayments db ps pe ++ genManagerPayments db ps pe).Pairwise
      (fun p q => sharesSaleSameUserRole p q = false) := by
  rw [List.pairwise_append]
  refine ⟨?_, ?_, ?_⟩
  · refine List.Pairwise.imp (fun h => sharesSale_eq_false_of_user h) ?_
    exact pairwise_user_filterMap _ _
      (fun k p hf => by
        obtain ⟨u, _, hmk⟩ := Option.map_eq_some'.mp hf
        rw [← hmk]
        rfl)
      (nodup_dedupFirst _)
  · refine List.Pairwise.imp (fun h => sharesSale_eq_false_of_user h) ?_
    exact pairwise_user_filterMap _ _
      (fun k p hf => by
        obtain ⟨u, _, hmk⟩ := Option.map_eq_some'.mp hf
        rw [← hmk]
        rfl)
      (nodup_dedupFirst _)
  · intro p hp q hq
    apply sharesSale_eq_false_of_role
    rw [genInfluencerPayments_role hp, genManagerPayments_role hq]
    simp

theorem batch_sale_ids {db : DB} {ps pe : Int} {p : CommissionPayment}
    (hp : p ∈ genInfluencerPayments db ps pe ++ genManagerPayments db ps pe)
    {i : Nat} (hi : i ∈ p.sales) :
    ∃ s ∈ db.sales, s.saleId = i ∧ saleInRange ps pe s = true := by
  rcases List.mem_append.mp hp with hp | hp
  · obtain ⟨uid, _, _, rfl⟩ := mem_genInfluencerPayments.mp hp
    obtain ⟨s, hs, rfl⟩ := List.mem_map.mp hi
    rcases mem_gcpSales.mp (List.mem_filter.mp hs).1 with ⟨h1, h2, _⟩
    exact ⟨s, h1, rfl, h2⟩
  · obtain ⟨mid, _, _, rfl⟩ := mem_genManagerPayments.mp hp
    obtain ⟨s, hs, rfl⟩ := List.mem_map.mp hi
    rcases mem_gcpSales.mp (List.mem_filter.mp hs).1 with ⟨h1, h2, _⟩
    exact ⟨s, h1, rfl, h2⟩

/-- The id and transaction date of a sale — the data the double-counting
argument tracks across backfills. -/
def saleShape (s : Sale) : Nat × Int := (s.saleId, s.transactionDate)

theorem backfillSale_shape (t : List CommissionTier) (s : Sale) :
    saleShape (backfillSale t s) = saleShape s := by
  unfold backfillSale
  split <;> rfl

theorem processPending_shape (db : DB) :
    ((processPendingCommissions db).1).sales.map saleShape =
      db.sales.map saleShape := by
  show (db.sales.map (backfillSale db.tiers)).map saleShape = db.sales.map saleShape
  rw [List.map_map]
  exact List.map_congr_left (fun s _ => backfillSale_shape db.tiers s)

theorem gcpBase_shape (db : DB) (ps pe : Int) :
    ((gcpBase db ps pe).sales).map saleShape = db.sales.map saleShape := by
  unfold gcpBase
  split
  · exact processPending_shape db
  · rfl

theorem gcpBase_payments (db : DB) (ps pe : Int) :
    (gcpBase db ps pe).payments = db.payments := by
  unfold gcpBase
  split <;> rfl

theorem generate_payments_eq (db : DB) (ps pe : Int) :
    (generateCommissionPayments db ps pe).payments =
      db.payments ++ genInfluencerPayments (gcpBase db ps pe) ps pe ++
        genManagerPayments (gcpBase db ps pe) ps pe := by
  show (gcpBase db ps pe).payments ++ _ ++ _ = _
  rw [gcpBase_payments]

theorem generate_sales_shape (db : DB) (ps pe : Int) :
    ((generateCommissionPayments db ps pe).sales).map saleShape =
      db.sales.map saleShape := by
  show ((gcpBase db ps pe).sales).map saleShape = _
  exact gcpBase_shape db ps pe

theorem snd_unique_of_fst_nodup :
    ∀ (l : List (Nat × Int)), (l.map Prod.fst).Nodup →
      ∀ (i : Nat) (d1 d2 : Int), (i, d1) ∈ l → (i, d2) ∈ l → d1 = d2
  | [], _, _, _, _, h1, _ => absurd h1 (List.not_mem_nil _)
  | x :: xs, hnd, i, d1, d2, h1, h2 => by
    rcases List.nodup_cons.mp hnd with ⟨hxnotin, hndxs⟩
    rcases List.mem_cons.mp h1 with he1 | h1
    · rcases List.mem_cons.mp h2 with he2 | h2
      · rw [← he2] at he1
        exact congrArg Prod.snd he1
      · exfalso
        apply hxnotin
        rw [← he1]
        exact List.mem_map.mpr ⟨(i, d2), h2, rfl⟩
    · rcases List.mem_cons.mp h2 with he2 | h2
      · exfalso
        apply hxnotin
        rw [← he2]
        exact List.mem_map.mpr ⟨(i, d1), h1, rfl⟩
      · exact snd_unique_of_fst_nodup xs hndxs i d1 d2 h1 h2

/-- C9 amended: the generator does not exclude already-batched sales, so
the no-double-counting invariant does not hold for arbitrary sequences
(see the counterexample); it holds exactly when generation calls are
restricted to non-overlapping periods — starting from a state with no
payments and distinct sale ids, two generator runs over disjoint periods
produce a payment table in which no sale id appears in two distinct rows
with the same (user, roleAtPayment). -/
theorem payment_generation_disjoint_periods (db : DB) (ps1 pe1 ps2 pe2 : Int)
    (hdisj : pe1 < ps2) (hpay : db.payments = [])
    (hids : (db.sales.map (·.saleId)).Nodup) :
    doubleCounted
      ((generateCommissionPayments (generateCommissionPayments db ps1 pe1)
        ps2 pe2).payments) = false := by
  have hshape1 : (generateCommissionPayments db ps1 pe1).sales.map saleShape =
      db.sales.map saleShape := generate_sales_shape db ps1 pe1
  have hshapeA : ((gcpBase db ps1 pe1).sales).map saleShape =
      db.sales.map saleShape := gcpBase_shape db ps1 pe1
  have hshapeB : ((gcpBase (generateCommissionPayments db ps1 pe1) ps2 pe2).sales).map
      saleShape = db.sales.map saleShape :=
    (gcpBase_shape (generateCommissionPayments db ps1 pe1) ps2 pe2).trans hshape1
  have hpayments :
      (generateCommissionPayments (generateCommissionPayments db ps1 pe1)
        ps2 pe2).payments =
      (genInfluencerPayments (gcpBase db ps1 pe1) ps1 pe1 ++
        genManagerPayments (gcpBase db ps1 pe1) ps1 pe1) ++
      (genInfluencerPayments
          (gcpBase (generateCommissionPayments db ps1 pe1) ps2 pe2) ps2 pe2 ++
        genManagerPayments
          (gcpBase (generateCommissionPayments db ps1 pe1) ps2 pe2) ps2 pe2) := by
    rw [generate_payments_eq, generate_payments_eq, hpay]
    simp [List.append_assoc]
  rw [hpayments, doubleCounted_eq_false, List.pairwise_append]
  refine ⟨batch_noShared _ ps1 pe1, batch_noShared _ ps2 pe2, ?_⟩
  intro p hp q hq
  apply sharesSale_eq_false_of_disjoint
  intro i hip hiq
  obtain ⟨s, hs, hsid, hsr⟩ := batch_sale_ids hp hip
  obtain ⟨t, ht, htid, htr⟩ := batch_sale_ids hq hiq
  have h1 : (i, s.transactionDate) ∈ db.sales.map saleShape := by
    rw [← hshapeA]
    exact List.mem_map.mpr ⟨s, hs, by simp [saleShape, hsid]⟩
  have h2 : (i, t.transactionDate) ∈ db.sales.map saleShape := by
    rw [← hshapeB]
    exact List.mem_map.mpr ⟨t, ht, by simp [saleShape, htid]⟩
  have hfstnd : ((db.sales.map saleShape).map Prod.fst).Nodup := by
    rw [List.map_map]
    simpa [Function.comp_def, saleShape] using hids
  have hdd := snd_unique_of_fst_nodup _ hfstnd i s.transactionDate
    t.transactionDate h1 h2
  have hA : ps1 ≤ s.transactionDate ∧ s.transactionDate ≤ pe1 := by
    simpa [saleInRange] using hsr
  have hB : ps2 ≤ t.transactionDate ∧ t.transactionDate ≤ pe2 := by
    simpa [saleInRange] using htr
  omega

/-- C9 amended witness: two generator runs over the disjoint periods
`[0, 10]` and `[11, 20]` on the concrete three-sale state. -/
theorem payment_generation_disjoint_periods_witness :
    ((10 : Int) < 11 ∧ c7Db.payments = [] ∧
      (c7Db.sales.map (·.saleId)).Nodup) ∧
    doubleCounted
      ((generateCommissionPayments (generateCommissionPayments c7Db 0 10)
        11 20).payments) = false :=
  ⟨⟨by decide, rfl, by decide⟩,
    payment_generation_disjoint_periods c7Db 0 10 11 20 (by decide) rfl
      (by decide)⟩

end InfluencerBackend
